import Mathlib

/-!
Verification of the fetch/extract/aggregate orchestration core of the
"Picking Console Size Calculator" browser extension.

The JavaScript sources are shallowly embedded:

* numbers are modelled as rationals (`ℚ`); the JavaScript value `NaN`,
  which `parseFloat` can produce, is modelled explicitly by `JsNumber.nan`;
* DOM documents are modelled by their observable structure: a list of
  tables, each a list of rows, each a list of cells carrying a tag
  (`th`/`td`), their text content and the text of a nested link, if any;
* free text (`body.innerText`, raw HTML) is modelled as the list of its
  maximal word-character runs where a regex with `\b` anchors is applied,
  and as a plain string where a regex without such anchors is applied;
* asynchronous calls are modelled by passing their results in as
  function arguments (for the orchestration logic) and by explicit event
  traces (for the concurrency discipline);
* timestamps are natural numbers of milliseconds.
-/

namespace PickingConsole

/-! ## Generic string helpers (regex building blocks)

`String.trim`, `String.toLower` and `String.splitOn` are re-implemented
on character lists so that every definition evaluates by kernel
reduction; the ASCII fragment relevant to the scanned pages is modelled
(the sources only ever compare against ASCII literals). -/
/-- ASCII part of the regex class `\s` (and of what `trim` removes). -/
def jsIsSpace (c : Char) : Bool :=
  c = ' ' || c = '\t' || c = '\n' || c = '\r' ||
    c = Char.ofNat 11 || c = Char.ofNat 12

/-- JavaScript `String.trim()`: whitespace stripped from both ends. -/
def jsTrim (s : String) : String :=
  String.mk (((s.data.dropWhile jsIsSpace).reverse.dropWhile jsIsSpace).reverse)

/-- ASCII `toLowerCase` of one character. -/
def lcChar (c : Char) : Char :=
  if 65 ≤ c.toNat ∧ c.toNat ≤ 90 then Char.ofNat (c.toNat + 32) else c

/-- JavaScript `String.toLowerCase()` (ASCII fragment). -/
def lcString (s : String) : String :=
  String.mk (s.data.map lcChar)

/-- Predicate `headedBy pat cs`: `cs` starts with the characters `pat`. -/
def headedBy : List Char → List Char → Bool
  | [], _ => true
  | _ :: _, [] => false
  | a :: ps, b :: ss => a = b && headedBy ps ss

/-- Occurrence search for `strContains`. -/
def containsSeq (pat : List Char) : List Char → Bool
  | [] => headedBy pat []
  | b :: rest => headedBy pat (b :: rest) || containsSeq pat rest

/-- Character class `\d`, i.e. `[0-9]`. -/
def isDigitChar (c : Char) : Bool :=
  '0' ≤ c && c ≤ '9'

/-- Character class `[A-Z0-9]`. -/
def isUpperAlnumChar (c : Char) : Bool :=
  ('A' ≤ c && c ≤ 'Z') || ('0' ≤ c && c ≤ '9')

/-- A string matching `/^[A-Z0-9]+$/`: non-empty, all characters in `[A-Z0-9]`. -/
def isUpperAlnumStr (s : String) : Bool :=
  s ≠ "" && s.data.all isUpperAlnumChar

/-- A string matching `/^[XB][A-Z0-9]{9,}$/`.  This is also the shape of the
whole-word tokens matched by the global regex `/\b[XB][A-Z0-9]{9,}\b/g`
when text is tokenised into maximal word-character runs. -/
def isFNSKUToken (s : String) : Bool :=
  match s.data with
  | c :: rest => (c = 'X' || c = 'B') && decide (9 ≤ rest.length) && rest.all isUpperAlnumChar
  | [] => false

/-- A string matching `/^[A-Z0-9]{10,}$/` (the "broader pattern" of
`extractFNSKUsFromPage`). -/
def isBroadToken (s : String) : Bool :=
  decide (10 ≤ s.data.length) && s.data.all isUpperAlnumChar

/-- Predicate `strContains s pat`: `pat` occurs in `s` (JavaScript `String.includes`,
for a non-empty literal pattern). -/
def strContains (s pat : String) : Bool :=
  containsSeq pat.data s.data

/-! ## `[...new Set(xs)]` : deduplication keeping first occurrences -/
/-- Worker for `dedupFirst`; `seen` collects elements already emitted. -/
def dedupFirstAux (seen : List String) : List String → List String
  | [] => []
  | a :: rest =>
    if a ∈ seen then dedupFirstAux seen rest
    else a :: dedupFirstAux (a :: seen) rest

/-- JavaScript `[...new Set(xs)]`: removes duplicates, keeping the first
occurrence of each element, preserving order. -/
def dedupFirst (l : List String) : List String :=
  dedupFirstAux [] l

/-! ## Rounding: `Math.round(x * 100) / 100`

JavaScript `Math.round` rounds half-way cases toward `+∞`, i.e.
`Math.round x = ⌊x + 1/2⌋`. -/
/-- Rounding `round2 q` models `Math.round(q * 100) / 100`. -/
def round2 (q : ℚ) : ℚ :=
  (⌊q * 100 + 1 / 2⌋ : ℚ) / 100

/-! ## Weight Cache (`background.js` lines 24-25, 76-81, 326-355) -/
/-- One cache entry: `{ weight, timestamp: Date.now() }`. -/
structure CacheEntry where
  weight : ℚ
  timestamp : ℕ
deriving DecidableEq

/-- The `weightCache` map, keyed by `` `${warehouseId}:${fnsku}` ``. -/
def WeightCache := String → Option CacheEntry

/-- Constant `CACHE_DURATION = 30 * 60 * 1000` (30 minutes in milliseconds). -/
def CACHE_DURATION : ℕ := 30 * 60 * 1000

/-- The cache key `` `${warehouseId}:${fnsku}` ``. -/
def cacheKey (warehouseId fnsku : String) : String :=
  warehouseId ++ ":" ++ fnsku

/-- Models `weightCache.set(cacheKey, ...)`, storing the weight with the current time
(`background.js` line 353). -/
def cachePut (c : WeightCache) (k : String) (w : ℚ) (now : ℕ) : WeightCache :=
  fun k2 => if k2 = k then some ⟨w, now⟩ else c k2

/-- The cache lookup of `fetchWeightViaFCResearchTab` (`background.js`
lines 327-332): a stored entry is a hit only while
`now - entry.timestamp < CACHE_DURATION`; otherwise the lookup is a miss. -/
def cacheLookup (c : WeightCache) (k : String) (now : ℕ) : Option ℚ :=
  match c k with
  | some e => if now - e.timestamp < CACHE_DURATION then some e.weight else none
  | none => none

/-- Models `weightCache.clear()` (the `clearCache` message handler,
`background.js` lines 76-81). -/
def clearCache (_c : WeightCache) : WeightCache :=
  fun _ => none

/-! ## DOM model

A document is modelled by what the extraction code observes of it:
tables of rows of cells, plus tokenised views of the raw HTML and of
`body.innerText` for the regex fallbacks (a token is one maximal run of
word characters, the unit at which a `\b...\b` regex matches). -/
/-- Whether a cell is a `<th>` or a `<td>`. -/
inductive CellTag where
  | th
  | td
deriving DecidableEq

/-- A table cell: its tag, its `textContent`, and the `textContent` of its
first `<a>` descendant, when one exists (`cell.querySelector('a')`). -/
structure Cell where
  tag : CellTag
  text : String
  linkText : Option String
deriving DecidableEq

/-- A table row; `row.querySelectorAll('td')` is `cells.filter (tag = td)`,
`row.querySelectorAll('td, th')` is `cells` itself. -/
structure TableRow where
  cells : List Cell
deriving DecidableEq

/-- A table; `table.querySelector('tr')` is `rows.head?`. -/
structure HtmlTable where
  rows : List TableRow
deriving DecidableEq

/-- A Rodeo document as observed by the two identifier extractors. -/
structure Page where
  /-- `document.querySelectorAll('table')`, in document order. -/
  tables : List HtmlTable
  /-- Maximal word-character runs of the raw HTML string (the text the
  global regex `/\b[XB][A-Z0-9]{9,}\b/g` of `parseRodeoFNSKUs` scans). -/
  htmlTokens : List String
  /-- Maximal word-character runs of `document.body.innerText` (the text
  the regex fallback of `extractFNSKUsFromPage` scans). -/
  bodyTokens : List String
deriving DecidableEq

/-! ## `parseRodeoFNSKUs` (`background.js` lines 633-667, direct mode) -/
/-- The body of the `rows.forEach` of `parseRodeoFNSKUs`: skip the row at
global index 0; take `cells = row.querySelectorAll('td')`; if
`cells.length > 1`, trim `cells[1].textContent` and keep it when it is
non-empty and matches `/^[A-Z0-9]+$/`. -/
def rodeoRowFNSKU (indexedRow : ℕ × TableRow) : Option String :=
  if indexedRow.1 = 0 then none
  else
    match indexedRow.2.cells.filter (fun c => c.tag = CellTag.td) with
    | _ :: c1 :: _ =>
      if isUpperAlnumStr (jsTrim c1.text) then some (jsTrim c1.text) else none
    | _ => none

/-- The table strategy of `parseRodeoFNSKUs`: all rows of all tables
(`doc.querySelectorAll('table tr')`, document order), pushed through
`rodeoRowFNSKU`.  Duplicates are preserved: each matching row contributes
one entry. -/
def rodeoTableHits (p : Page) : List String :=
  ((p.tables.map HtmlTable.rows).flatten.enum).filterMap rodeoRowFNSKU

/-- Function `parseRodeoFNSKUs` (`background.js` lines 633-667): the table strategy,
then — only when it produced nothing — the regex strategy
`/\b[XB][A-Z0-9]{9,}\b/g` over the raw HTML. -/
def parseRodeoFNSKUs (p : Page) : List String :=
  let fnskus := rodeoTableHits p
  if fnskus.length = 0 then p.htmlTokens.filter isFNSKUToken
  else fnskus

/-! ## `extractFNSKUsFromPage` (`content/rodeo.js` lines 164-248,
navigate-resume mode) -/
/-- The header test of `extractFNSKUsFromPage` (lines 184-191):
`text.includes('fn sku') || text.includes('fnsku') || text === 'fn_sku' ||
text.includes('fn s')` on the trimmed, lower-cased header text. -/
def headerMatchesFNSKU (s : String) : Bool :=
  let text := lcString (jsTrim s)
  strContains text "fn sku" || strContains text "fnsku" ||
    text = "fn_sku" || strContains text "fn s"

/-- Column detection (lines 180-197): the `headers.forEach` records the
LAST header index whose text matches; when none matches, column index 1 is
used. -/
def findFNSKUIndex (headers : List Cell) : ℕ :=
  match (headers.enum.filterMap fun ih =>
      if headerMatchesFNSKU ih.2.text then some ih.1 else none).getLast? with
  | some i => i
  | none => 1

/-- Models `(link ? link.textContent : cell.textContent).trim()` (line 210). -/
def cellDisplayText (cell : Cell) : String :=
  jsTrim (match cell.linkText with
    | some lt => lt
    | none => cell.text)

/-- The per-row body of the data-row loop (lines 203-224): take the `td`
cells; at the detected column, read the link text when a link is present,
else the cell text, trimmed; keep it when it matches
`/^[XB][A-Z0-9]{9,}$/`, or (backup) `/^[A-Z0-9]{10,}$/`. -/
def rodeoPageRowFNSKU (fnskuIndex : ℕ) (indexedRow : ℕ × TableRow) :
    Option String :=
  if indexedRow.1 = 0 then none
  else
    match (indexedRow.2.cells.filter (fun c => c.tag = CellTag.td)).get? fnskuIndex with
    | some cell =>
      if cellDisplayText cell ≠ "" && isFNSKUToken (cellDisplayText cell) then
        some (cellDisplayText cell)
      else if cellDisplayText cell ≠ "" && isBroadToken (cellDisplayText cell) then
        some (cellDisplayText cell)
      else none
    | none => none

/-- One table's contribution (lines 172-230): a table with no row at all is
skipped (`querySelector('tr')` is null); otherwise the column index is
detected from the first row's cells and every later row is scanned. -/
def extractFromTable (t : HtmlTable) : List String :=
  match t.rows with
  | [] => []
  | headerRow :: _ =>
    let fnskuIndex := findFNSKUIndex headerRow.cells
    t.rows.enum.filterMap (rodeoPageRowFNSKU fnskuIndex)

/-- The `for (const table of tables)` loop with its
`if (fnskus.length > 0) break;`: the result is the first table
contribution that is non-empty. -/
def firstNonEmpty : List (List String) → List String
  | [] => []
  | l :: ls => if l = [] then firstNonEmpty ls else l

/-- Function `extractFNSKUsFromPage` (`content/rodeo.js` lines 164-248): the first
table whose scan matches; only if no table matched, the regex
`/\b[XB][A-Z0-9]{9,}\b/g` over `document.body.innerText`; finally the
result is deduplicated (`[...new Set(fnskus)]`, line 244). -/
def extractFNSKUsFromPage (p : Page) : List String :=
  let tableResult := firstNonEmpty (p.tables.map extractFromTable)
  let fnskus :=
    if tableResult = [] then p.bodyTokens.filter isFNSKUToken
    else tableResult
  dedupFirst fnskus

/-! ## JavaScript numbers and `parseFloat`

The weight parsers apply `parseFloat` to the text captured by `([\d.]+)`,
so the input is a non-empty string of digits and dots.  On such strings
`parseFloat` reads an integer part, an optional dot, and a fraction part,
ignores the rest, and yields `NaN` when no digit was read (e.g. `"."`).
`NaN` is modelled explicitly: the code forwards it like any number. -/
/-- A JavaScript number as produced by `parseFloat`: `NaN` or a value. -/
inductive JsNumber where
  | nan
  | val (q : ℚ)
deriving DecidableEq

/-- The numeric value of a digit string (most significant first). -/
def digitsToNat (l : List Char) : ℕ :=
  l.foldl (fun n c => 10 * n + (c.toNat - 48)) 0

/-- Models `parseFloat` restricted to strings of digits and dots: longest prefix
of shape `digits [. digits]`; `NaN` when that prefix holds no digit. -/
def parseJsFloat (s : String) : JsNumber :=
  let intPart := s.data.takeWhile isDigitChar
  let rest := s.data.dropWhile isDigitChar
  let fracPart :=
    match rest with
    | '.' :: r => r.takeWhile isDigitChar
    | _ => []
  if intPart = [] ∧ fracPart = [] then JsNumber.nan
  else JsNumber.val
    (mkRat (digitsToNat intPart * 10 ^ fracPart.length + digitsToNat fracPart)
      (10 ^ fracPart.length))

/-- Character class `[\d.]`. -/
def isDigitDot (c : Char) : Bool :=
  isDigitChar c || c = '.'

/-- Predicate `leadsWithCI pat cs`: `cs` starts with `pat`, comparing characters
after lower-casing (a case-insensitive literal regex atom). -/
def leadsWithCI : List Char → List Char → Bool
  | [], _ => true
  | _ :: _, [] => false
  | a :: ws, b :: ss => (lcChar b = a) && leadsWithCI ws ss

/-- The regex atom `(?:pounds?|lbs?)/i` matches at `cs` iff `cs` starts with `pound` or
`lb` (case-insensitively; the trailing `s` is optional and nothing anchors
the word end). -/
def poundsAt (cs : List Char) : Bool :=
  leadsWithCI ['p', 'o', 'u', 'n', 'd'] cs || leadsWithCI ['l', 'b'] cs

/-- First-match search for `/([\d.]+)\s*(?:pounds?|lbs?)/i`: scans left to
right, accumulating the current maximal `[\d.]` run in `acc` (reversed);
when the run ends, it matches iff, after optional whitespace, `pounds`/`lbs`
follows; otherwise scanning resumes.  Returns the captured run. -/
def findLbsRunAux (acc : List Char) : List Char → Option (List Char)
  | [] => none
  | c :: rest =>
    if isDigitDot c then findLbsRunAux (c :: acc) rest
    else
      if acc ≠ [] && poundsAt ((c :: rest).dropWhile jsIsSpace) then
        some acc.reverse
      else findLbsRunAux [] rest

/-- First match of `/([\d.]+)/`: the first maximal `[\d.]` run. -/
def firstDigitRun : List Char → Option (List Char)
  | [] => none
  | c :: rest =>
    if isDigitDot c then some (c :: rest.takeWhile isDigitDot)
    else firstDigitRun rest

/-- The value-cell parsing block shared by `extractWeightFromPage`
(`content/fcresearch.js` lines 200-214) and `parseFCResearchWeight`
(`background.js` lines 727-737): first the pounds-suffixed regex, then a
bare number; when neither matches, no value (the scan continues). -/
def parseWeightText (t : String) : Option JsNumber :=
  match findLbsRunAux [] t.data with
  | some run => some (parseJsFloat (String.mk run))
  | none =>
    match firstDigitRun t.data with
    | some run => some (parseJsFloat (String.mk run))
    | none => none

/-- The inner loop `for (let i = 0; i < cells.length - 1; i++)` over
`row.querySelectorAll('td, th')`: at the first cell whose trimmed,
lower-cased text is exactly `weight` and whose successor cell parses, the
parsed number is returned; an unparsable value cell does not stop the
scan. -/
def scanCellsForWeight : List Cell → Option JsNumber
  | c0 :: c1 :: rest =>
    if lcString (jsTrim c0.text) = "weight" then
      match parseWeightText (jsTrim c1.text) with
      | some n => some n
      | none => scanCellsForWeight (c1 :: rest)
    else scanCellsForWeight (c1 :: rest)
  | _ => none

/-- The outer loop over `document.querySelectorAll('tr')`. -/
def scanRowsForWeight : List TableRow → Option JsNumber
  | [] => none
  | r :: rs =>
    match scanCellsForWeight r.cells with
    | some n => some n
    | none => scanRowsForWeight rs

/-- An FC Research document as observed by `extractWeightFromPage`. -/
structure FCPage where
  /-- `document.querySelectorAll('tr')`, in document order. -/
  rows : List TableRow
  /-- `document.body.innerText`. -/
  bodyText : String
deriving DecidableEq

/-- Attempts `/Weight[:\s]+([\d.]+)\s*(?:pounds?|lbs?)/i` at the head of
`cs`: the literal `Weight`, one or more colons/spaces, the captured run,
optional whitespace, `pounds`/`lbs`. -/
def weightLabelAt (cs : List Char) : Option JsNumber :=
  if leadsWithCI ['w', 'e', 'i', 'g', 'h', 't'] cs then
    let afterW := cs.drop 6
    let seps := afterW.takeWhile (fun c => c = ':' || jsIsSpace c)
    if seps = [] then none
    else
      let afterSep := afterW.drop seps.length
      let run := afterSep.takeWhile isDigitDot
      if run = [] then none
      else
        if poundsAt ((afterSep.drop run.length).dropWhile jsIsSpace) then
          some (parseJsFloat (String.mk run))
        else none
  else none

/-- First-match scan for the `innerText` fallback regex of
`extractWeightFromPage` (`content/fcresearch.js` line 226). -/
def fallbackWeightScan : List Char → Option JsNumber
  | [] => none
  | c :: rest =>
    match weightLabelAt (c :: rest) with
    | some n => some n
    | none => fallbackWeightScan rest

/-- Function `extractWeightFromPage` (`content/fcresearch.js` lines 182-235): the
table scan, then — only when it returned nothing — the `innerText`
fallback regex; `none` models the final `return null`. -/
def extractWeightFromPage (p : FCPage) : Option JsNumber :=
  match scanRowsForWeight p.rows with
  | some n => some n
  | none => fallbackWeightScan p.bodyText.data

/-- An FC Research response as observed by `parseFCResearchWeight`:
the parsed document's rows plus the raw HTML string. -/
structure FCResearchDoc where
  /-- `doc.querySelectorAll('tr')`, in document order. -/
  rows : List TableRow
  /-- The raw HTML text the fallback regex scans. -/
  html : String
deriving DecidableEq

/-- Attempts `/Weight<\/td>\s*<td[^>]*>([\d.]+)\s*(?:pounds?|lbs?)/i` at
the head of `cs`. -/
def htmlTdWeightAt (cs : List Char) : Option JsNumber :=
  if leadsWithCI ['w', 'e', 'i', 'g', 'h', 't', '<', '/', 't', 'd', '>'] cs then
    let after := (cs.drop 11).dropWhile jsIsSpace
    if leadsWithCI ['<', 't', 'd'] after then
      let afterTd := after.drop 3
      let attrs := afterTd.takeWhile (fun c => c ≠ '>')
      match afterTd.drop attrs.length with
      | '>' :: afterGt =>
        let run := afterGt.takeWhile isDigitDot
        if run = [] then none
        else
          if poundsAt ((afterGt.drop run.length).dropWhile jsIsSpace) then
            some (parseJsFloat (String.mk run))
          else none
      | _ => none
    else none
  else none

/-- First-match scan for the raw-HTML fallback regex of
`parseFCResearchWeight` (`background.js` line 742). -/
def htmlWeightScan : List Char → Option JsNumber
  | [] => none
  | c :: rest =>
    match htmlTdWeightAt (c :: rest) with
    | some n => some n
    | none => htmlWeightScan rest

/-- Function `parseFCResearchWeight` (`background.js` lines 713-748): the same
table scan, then the raw-HTML fallback regex; `none` models `return null`. -/
def parseFCResearchWeight (d : FCResearchDoc) : Option JsNumber :=
  match scanRowsForWeight d.rows with
  | some n => some n
  | none => htmlWeightScan d.html.data

/-! ## Connected tabs (`background.js` lines 28-32, 116-131) -/
/-- The `connectedTabs` record: a tab id per role, `none` for `null`. -/
structure ConnectedTabs where
  pickingConsole : Option ℕ
  rodeo : Option ℕ
  fcresearch : Option ℕ
deriving DecidableEq

/-- Function `areAllTabsConnected` (`background.js` lines 116-122). -/
def areAllTabsConnected (t : ConnectedTabs) : Bool :=
  t.pickingConsole.isSome && t.rodeo.isSome && t.fcresearch.isSome

/-- Function `getMissingTabs` (`background.js` lines 125-131). -/
def getMissingTabs (t : ConnectedTabs) : List String :=
  (if t.pickingConsole.isNone then ["Picking Console"] else []) ++
    (if t.rodeo.isNone then ["Rodeo"] else []) ++
      (if t.fcresearch.isNone then ["FC Research"] else [])

/-! ## Orchestration (`handleFetchBatchData`, `background.js` lines 189-297)

The two awaited remote exchanges are passed in as data: `rodeoResult` is
the response of `fetchFNSKUsViaRodeoTab`, and `fetchWeight` gives, per
unique FN SKU, the weight the FC Research exchange resolved (`none` when
the item failed or carried no weight — such failures are swallowed by the
`weightMap` construction at lines 244-253). -/
/-- The response shape of the Rodeo exchange: `{ error?, fnskus }`. -/
structure RodeoResponse where
  error : Option String
  fnskus : List String
deriving DecidableEq

/-- The result object built at `background.js` lines 273-284
(the `fnskuList`/`weightMap` debug echoes are omitted). -/
structure BatchResult where
  batchId : String
  totalItems : ℕ
  itemsWithWeight : ℕ
  averageWeight : ℚ
  totalWeight : ℚ
  minWeight : ℚ
  maxWeight : ℚ
  uniqueSKUs : ℕ
deriving DecidableEq

/-- The outcome of `handleFetchBatchData`: either an `{ error: message }`
object or the statistics record. -/
inductive BatchOutcome where
  | failure (message : String)
  | success (r : BatchResult)
deriving DecidableEq

/-- The `weightMap` of lines 244-253: it holds a weight exactly for the
unique FN SKUs whose fetch resolved one. -/
def weightMapOf (uniqueFNSKUs : List String) (fetchWeight : String → Option ℚ) :
    String → Option ℚ :=
  fun s => if s ∈ uniqueFNSKUs then fetchWeight s else none

/-- Steps 3-4 of `handleFetchBatchData` (lines 255-284): look every
*original* FN SKU up in the weight map, drop the unresolved ones, and if
any weight remains compute the statistics; `none` models the
`weights.length === 0` error return (line 263). -/
def computeStatistics (batchId : String) (fnskus uniqueFNSKUs : List String)
    (weightMap : String → Option ℚ) : Option BatchResult :=
  match fnskus.filterMap weightMap with
  | [] => none
  | w :: ws =>
    some { batchId := batchId
           totalItems := fnskus.length
           itemsWithWeight := (w :: ws).length
           averageWeight := round2 ((w :: ws).sum / ((w :: ws).length : ℚ))
           totalWeight := round2 (w :: ws).sum
           minWeight := round2 (ws.foldl min w)
           maxWeight := round2 (ws.foldl max w)
           uniqueSKUs := uniqueFNSKUs.length }

/-- Function `handleFetchBatchData` (`background.js` lines 189-297): connection
precondition, Rodeo error propagation, the empty-identifier check, the
per-unique-SKU weight fetch with lazy dedup (`[...new Set(fnskus)]`,
line 231), and the statistics step with its all-unresolved check.  Each
error message is the code's. -/
def handleFetchBatchData (tabs : ConnectedTabs) (batchId : String)
    (rodeoResult : RodeoResponse) (fetchWeight : String → Option ℚ) :
    BatchOutcome :=
  if areAllTabsConnected tabs = false then
    BatchOutcome.failure ("Missing required tabs: " ++
      String.intercalate ", " (getMissingTabs tabs) ++
        ". Please open all three tabs.")
  else
    match rodeoResult.error with
    | some e => BatchOutcome.failure ("Rodeo error: " ++ e)
    | none =>
      let fnskus := rodeoResult.fnskus
      if fnskus.length = 0 then
        BatchOutcome.failure "No FN SKUs found for this batch in Rodeo"
      else
        let uniqueFNSKUs := dedupFirst fnskus
        match computeStatistics batchId fnskus uniqueFNSKUs
            (weightMapOf uniqueFNSKUs fetchWeight) with
        | none =>
          BatchOutcome.failure
            "Could not retrieve weights for any items from FC Research"
        | some r => BatchOutcome.success r

/-! ## Extraction tickets (`content/rodeo.js` lines 251-292,
`content/fcresearch.js` lines 295-336)

The `sessionStorage` slot `pcs_pending_extract` / `pcs_pending_weight`
holds at most one ticket; `checkPending*` runs on reload and returns the
new slot content together with the delivery (the `*DataReady` message) it
produced, if any. -/
/-- The `pcs_pending_extract` ticket. -/
structure PendingExtract where
  batchId : String
  warehouseId : String
  timestamp : ℕ
deriving DecidableEq

/-- Function `checkPendingExtract` (`content/rodeo.js` lines 251-292): no ticket —
nothing happens; a ticket younger than 30 s is removed and the page's
FN SKUs are delivered via `rodeoDataReady`; an older ticket is removed
without delivery. -/
def checkPendingExtract (store : Option PendingExtract) (now : ℕ)
    (page : Page) : Option PendingExtract × Option (List String) :=
  match store with
  | none => (none, none)
  | some pending =>
    if now - pending.timestamp < 30000 then
      (none, some (extractFNSKUsFromPage page))
    else
      (none, none)

/-- The `pcs_pending_weight` ticket. -/
structure PendingWeight where
  fnsku : String
  warehouseId : String
  timestamp : ℕ
deriving DecidableEq

/-- Function `checkPendingWeight` (`content/fcresearch.js` lines 295-336): same
discipline; the delivery is the `fcresearchDataReady` message, whose
weight may itself be `none` (`null`). -/
def checkPendingWeight (store : Option PendingWeight) (now : ℕ)
    (page : FCPage) : Option PendingWeight × Option (Option JsNumber) :=
  match store with
  | none => (none, none)
  | some pending =>
    if now - pending.timestamp < 30000 then
      (none, some (extractWeightFromPage page))
    else
      (none, none)

/-! ## Fan-out call traces (`background.js` lines 234-240 and 557-561)

A remote weight fetch is `issue`d when its request is sent and `complete`d
when its response has been processed.  The navigate-resume variant awaits
each call inside a `for` loop, so a call completes before the next is
issued.  The `Promise.all` variant's `map` runs each call synchronously up
to its first `await`, which sends the request; hence every request is
issued before any response is processed. -/
/-- One remote-call event of the fan-out stage. -/
inductive CallEvent where
  | issue (id : String)
  | complete (id : String)
deriving DecidableEq

/-- Running maximum of `#issued - #completed` over the prefixes of a
trace (`cur` outstanding now, `best` maximum so far). -/
def maxOutstandingAux : ℕ → ℕ → List CallEvent → ℕ
  | _, best, [] => best
  | cur, best, CallEvent.issue _ :: rest =>
    maxOutstandingAux (cur + 1) (max best (cur + 1)) rest
  | cur, best, CallEvent.complete _ :: rest =>
    maxOutstandingAux (cur - 1) best rest

/-- The largest number of calls simultaneously outstanding at any instant
of the trace. -/
def maxOutstanding (tr : List CallEvent) : ℕ :=
  maxOutstandingAux 0 0 tr

/-- The trace of the awaited `for (const fnsku of uniqueFNSKUs)` loop
(`background.js` lines 235-240): issue, await completion, move on. -/
def navigateResumeTrace : List String → List CallEvent
  | [] => []
  | id :: rest =>
    CallEvent.issue id :: CallEvent.complete id :: navigateResumeTrace rest

/-- The trace of `await Promise.all(uniqueFNSKUs.map(...))`
(`background.js` lines 559-561): every request is issued before any
response is processed (responses here in issue order; the bound below
holds whatever the completion order, since completions never increase the
outstanding count). -/
def promiseAllTrace (ids : List String) : List CallEvent :=
  ids.map CallEvent.issue ++ ids.map CallEvent.complete

/-! ## Test fixtures

Concrete documents and result tables used to instantiate the theorems
below; they realise the examples of the specification's §8. -/
/-- The §8 aggregation example's weight table: `{A: 1.0, B: 3.0}`. -/
def exampleWeights : String → Option ℚ :=
  fun s => if s = "A" then some 1 else if s = "B" then some 3 else none

/-- A Rodeo search page whose table holds the FN SKU `XAAAAAAAAA` twice
(two rows, one per physical item) and whose visible text also holds the
different well-formed token `XBBBBBBBBB`, so the structured and the
unstructured strategy would both match, with different results. -/
def pgStructured : Page :=
  { tables := [⟨[⟨[⟨CellTag.th, "Batch", none⟩, ⟨CellTag.th, "FN SKU", none⟩]⟩,
      ⟨[⟨CellTag.td, "L1", none⟩, ⟨CellTag.td, "XAAAAAAAAA", none⟩]⟩,
      ⟨[⟨CellTag.td, "L2", none⟩, ⟨CellTag.td, "XAAAAAAAAA", none⟩]⟩]⟩]
    htmlTokens := []
    bodyTokens := ["XBBBBBBBBB"] }

/-- A Rodeo response document whose second data-row cell is the short
alphanumeric string `ABC`. -/
def pgShortId : Page :=
  { tables := [⟨[⟨[⟨CellTag.th, "h1", none⟩, ⟨CellTag.th, "h2", none⟩]⟩,
      ⟨[⟨CellTag.td, "x", none⟩, ⟨CellTag.td, "ABC", none⟩]⟩]⟩]
    htmlTokens := []
    bodyTokens := [] }

/-- An FC Research page reporting the out-of-range weight `5000 pounds`. -/
def fcPage5000 : FCPage :=
  { rows := [⟨[⟨CellTag.td, "Weight", none⟩, ⟨CellTag.td, "5000 pounds", none⟩]⟩]
    bodyText := "" }

/-- A state with all three tabs registered. -/
def tabsAll : ConnectedTabs := ⟨some 1, some 2, some 3⟩

/-- The §8 partial-resolution example: only `A` and `C` resolve,
to `2.0` and `4.0` pounds. -/
def oracleAC : String → Option ℚ :=
  fun s => if s = "XAAAAAAAAA" then some 2
    else if s = "XCCCCCCCCC" then some 4 else none

/-! ## Theorems -/

theorem mem_dedupFirstAux {seen l : List String} {a : String} :
    a ∈ dedupFirstAux seen l ↔ a ∈ l ∧ a ∉ seen := by
  induction l generalizing seen with
  | nil => simp [dedupFirstAux]
  | cons b rest ih =>
    simp only [dedupFirstAux]
    by_cases hb : b ∈ seen
    · simp only [hb, if_true, ih, List.mem_cons]
      constructor
      · rintro ⟨h1, h2⟩; exact ⟨Or.inr h1, h2⟩
      · rintro ⟨h1 | h1, h2⟩
        · exact absurd (h1 ▸ hb) h2
        · exact ⟨h1, h2⟩
    · simp only [hb, if_false, List.mem_cons, ih, List.mem_cons]
      constructor
      · rintro (rfl | ⟨h1, h2⟩)
        · exact ⟨Or.inl rfl, hb⟩
        · exact ⟨Or.inr h1, fun hc => h2 (Or.inr hc)⟩
      · rintro ⟨rfl | h1, h2⟩
        · exact Or.inl rfl
        · by_cases hba : a = b
          · exact Or.inl hba
          · exact Or.inr ⟨h1, fun hc => (by
              rcases hc with h | h
              · exact hba h
              · exact h2 h)⟩

theorem mem_dedupFirst {l : List String} {a : String} :
    a ∈ dedupFirst l ↔ a ∈ l := by
  simp [dedupFirst, mem_dedupFirstAux]

theorem nodup_dedupFirstAux (seen l : List String) :
    (dedupFirstAux seen l).Nodup := by
  induction l generalizing seen with
  | nil => simp [dedupFirstAux]
  | cons b rest ih =>
    simp only [dedupFirstAux]
    by_cases hb : b ∈ seen
    · simpa [hb] using ih seen
    · simp only [hb, if_false, List.nodup_cons]
      refine ⟨fun hmem => ?_, ih (b :: seen)⟩
      exact (mem_dedupFirstAux.mp hmem).2 (List.mem_cons_self b seen)

theorem nodup_dedupFirst (l : List String) : (dedupFirst l).Nodup :=
  nodup_dedupFirstAux [] l

theorem length_dedupFirstAux_le (seen l : List String) :
    (dedupFirstAux seen l).length ≤ l.length := by
  induction l generalizing seen with
  | nil => simp [dedupFirstAux]
  | cons b rest ih =>
    simp only [dedupFirstAux]
    by_cases hb : b ∈ seen
    · simp only [hb, if_true]
      exact Nat.le_succ_of_le (ih seen)
    · simp only [hb, if_false, List.length_cons]
      exact Nat.succ_le_succ (ih (b :: seen))

theorem length_dedupFirst_le (l : List String) :
    (dedupFirst l).length ≤ l.length :=
  length_dedupFirstAux_le [] l

/-- The length of `dedupFirst l` is the number of distinct elements of `l`. -/
theorem length_dedupFirst_eq_card (l : List String) :
    (dedupFirst l).length = l.toFinset.card := by
  have hset : (dedupFirst l).toFinset = l.toFinset := by
    ext a
    simp [List.mem_toFinset, mem_dedupFirst]
  calc (dedupFirst l).length = (dedupFirst l).toFinset.card :=
        (List.toFinset_card_of_nodup (nodup_dedupFirst l)).symm
    _ = l.toFinset.card := by rw [hset]

theorem round2_mono {a b : ℚ} (h : a ≤ b) : round2 a ≤ round2 b := by
  unfold round2
  have h1 : a * 100 + 1 / 2 ≤ b * 100 + 1 / 2 := by nlinarith
  have h2 : ((⌊a * 100 + 1 / 2⌋ : ℤ) : ℚ) ≤ ((⌊b * 100 + 1 / 2⌋ : ℤ) : ℚ) := by
    exact_mod_cast Int.floor_mono h1
  exact (div_le_div_iff_of_pos_right (by norm_num)).mpr h2

/-! ## C2 — cache TTL and clear -/
/-- C2.  For every key `(region, itemId)` and value `v`: a `get` after
`put(k, v)` returns `v` while the elapsed time is under the 30-minute
TTL, misses once the elapsed time reaches the TTL, and after `clear()`
every lookup misses, whatever was put before. -/
theorem weightCache_ttl_clear :
    (∀ (c : WeightCache) (region itemId : String) (v : ℚ) (t e : ℕ),
      e < CACHE_DURATION →
      cacheLookup (cachePut c (cacheKey region itemId) v t)
        (cacheKey region itemId) (t + e) = some v) ∧
    (∀ (c : WeightCache) (region itemId : String) (v : ℚ) (t e : ℕ),
      CACHE_DURATION ≤ e →
      cacheLookup (cachePut c (cacheKey region itemId) v t)
        (cacheKey region itemId) (t + e) = none) ∧
    (∀ (c : WeightCache) (k : String) (t : ℕ),
      cacheLookup (clearCache c) k t = none) := by
  refine ⟨fun c region itemId v t e he => ?_,
    fun c region itemId v t e he => ?_, fun c k t => rfl⟩
  · simp [cacheLookup, cachePut, Nat.add_sub_cancel_left, he]
  · simp [cacheLookup, cachePut, Nat.add_sub_cancel_left, Nat.not_lt.mpr he]

/-- Witness for C2 at a concrete key, value and pair of times. -/
theorem weightCache_ttl_clear_witness :
    (17 < CACHE_DURATION ∧
      cacheLookup (cachePut (fun _ => none) (cacheKey "IND8" "X1") 5 1000)
        (cacheKey "IND8" "X1") (1000 + 17) = some 5) ∧
    (CACHE_DURATION ≤ 1800000 ∧
      cacheLookup (cachePut (fun _ => none) (cacheKey "IND8" "X1") 5 1000)
        (cacheKey "IND8" "X1") (1000 + 1800000) = none) :=
  ⟨⟨by decide, weightCache_ttl_clear.1 (fun _ => none) "IND8" "X1" 5 1000 17
      (by decide)⟩,
    ⟨by decide, weightCache_ttl_clear.2.1 (fun _ => none) "IND8" "X1" 5 1000
      1800000 (by decide)⟩⟩

/-! ## C9 — tickets are consumed exactly once -/
/-- C9.  A resume consumes the ticket (the store is empty afterwards in
every case); the result is delivered exactly when the ticket is younger
than 30 seconds, and an expired ticket is discarded without delivery; in
particular a second resume finds no ticket and delivers nothing.  Both
ticket stores (`pcs_pending_extract` and `pcs_pending_weight`) satisfy
this. -/
theorem ticket_consumed_once :
    (∀ (t : PendingExtract) (now : ℕ) (page : Page),
      now - t.timestamp < 30000 →
      checkPendingExtract (some t) now page =
        (none, some (extractFNSKUsFromPage page))) ∧
    (∀ (t : PendingExtract) (now : ℕ) (page : Page),
      30000 ≤ now - t.timestamp →
      checkPendingExtract (some t) now page = (none, none)) ∧
    (∀ (store : Option PendingExtract) (now : ℕ) (page : Page)
        (now2 : ℕ) (page2 : Page),
      checkPendingExtract (checkPendingExtract store now page).1 now2 page2 =
        (none, none)) ∧
    (∀ (t : PendingWeight) (now : ℕ) (page : FCPage),
      now - t.timestamp < 30000 →
      checkPendingWeight (some t) now page =
        (none, some (extractWeightFromPage page))) ∧
    (∀ (t : PendingWeight) (now : ℕ) (page : FCPage),
      30000 ≤ now - t.timestamp →
      checkPendingWeight (some t) now page = (none, none)) ∧
    (∀ (store : Option PendingWeight) (now : ℕ) (page : FCPage)
        (now2 : ℕ) (page2 : FCPage),
      checkPendingWeight (checkPendingWeight store now page).1 now2 page2 =
        (none, none)) := by
  refine ⟨fun t now page h => ?_, fun t now page h => ?_,
    fun store now page now2 page2 => ?_, fun t now page h => ?_,
    fun t now page h => ?_, fun store now page now2 page2 => ?_⟩
  · simp only [checkPendingExtract, if_pos h]
  · simp only [checkPendingExtract, if_neg (Nat.not_lt.mpr h)]
  · rcases store with _ | t
    · rfl
    · have h1 : (checkPendingExtract (some t) now page).1 = none := by
        simp only [checkPendingExtract]
        split <;> rfl
      rw [h1]
      rfl
  · simp only [checkPendingWeight, if_pos h]
  · simp only [checkPendingWeight, if_neg (Nat.not_lt.mpr h)]
  · rcases store with _ | t
    · rfl
    · have h1 : (checkPendingWeight (some t) now page).1 = none := by
        simp only [checkPendingWeight]
        split <;> rfl
      rw [h1]
      rfl

/-- Witness for C9: a fresh and an expired concrete ticket. -/
theorem ticket_consumed_once_witness :
    ((200 : ℕ) - 100 < 30000 ∧
      checkPendingExtract (some ⟨"B1", "IND8", 100⟩) 200 pgStructured =
        (none, some (extractFNSKUsFromPage pgStructured))) ∧
    (30000 ≤ (50000 : ℕ) - 100 ∧
      checkPendingExtract (some ⟨"B1", "IND8", 100⟩) 50000 pgStructured =
        (none, none)) ∧
    (30000 ≤ (50000 : ℕ) - 100 ∧
      checkPendingWeight (some ⟨"X1", "IND8", 100⟩) 50000 fcPage5000 =
        (none, none)) :=
  ⟨⟨by decide, ticket_consumed_once.1 ⟨"B1", "IND8", 100⟩ 200 pgStructured
      (by decide)⟩,
    ⟨by decide, ticket_consumed_once.2.1 ⟨"B1", "IND8", 100⟩ 50000 pgStructured
      (by decide)⟩,
    ⟨by decide, ticket_consumed_once.2.2.2.2.1 ⟨"X1", "IND8", 100⟩ 50000
      fcPage5000 (by decide)⟩⟩

/-! ## C4 — fan-out concurrency -/
theorem maxOutstandingAux_navigateResume (ids : List String) (cur best : ℕ) :
    maxOutstandingAux cur best (navigateResumeTrace ids) =
      if ids = [] then best else max best (cur + 1) := by
  induction ids generalizing cur best with
  | nil => rfl
  | cons id rest ih =>
    simp only [navigateResumeTrace, maxOutstandingAux, Nat.add_sub_cancel]
    rw [ih]
    rw [if_neg (by simp : ¬(id :: rest : List String) = [])]
    by_cases h : rest = []
    · rw [if_pos h]
    · rw [if_neg h]
      omega

theorem maxOutstandingAux_completes (ids : List String) (cur best : ℕ) :
    maxOutstandingAux cur best (ids.map CallEvent.complete) = best := by
  induction ids generalizing cur with
  | nil => rfl
  | cons id rest ih => simpa [maxOutstandingAux] using ih (cur - 1)

theorem maxOutstandingAux_issues (ids : List String) (tail : List CallEvent)
    (cur best : ℕ) :
    maxOutstandingAux cur best (ids.map CallEvent.issue ++ tail) =
      maxOutstandingAux (cur + ids.length)
        (if ids = [] then best else max best (cur + ids.length)) tail := by
  induction ids generalizing cur best with
  | nil => rfl
  | cons id rest ih =>
    simp only [List.map_cons, List.cons_append, List.append_eq,
      maxOutstandingAux, List.length_cons]
    rw [ih]
    rw [if_neg (by simp : ¬(id :: rest : List String) = [])]
    by_cases h : rest = []
    · subst h
      simp
    · rw [if_neg h,
        (by omega : cur + 1 + rest.length = cur + (rest.length + 1)),
        (by omega : max (max best (cur + 1)) (cur + (rest.length + 1)) =
          max best (cur + (rest.length + 1)))]

/-- C4, corrected.  The navigate-resume fan-out (the awaited `for` loop of
`background.js` lines 235-240) keeps at most one remote call outstanding;
the direct-mode fan-out (`Promise.all`, lines 559-561) issues every
unique identifier's call before any completes, so its peak number of
outstanding calls is exactly the number of unique identifiers — there is
no chunking and no cap at 5. -/
theorem fanout_concurrency_traces :
    (∀ ids : List String, maxOutstanding (navigateResumeTrace ids) ≤ 1) ∧
    (∀ ids : List String, maxOutstanding (promiseAllTrace ids) = ids.length) := by
  constructor
  · intro ids
    rw [maxOutstanding, maxOutstandingAux_navigateResume]
    rcases ids with _ | _ <;> simp
  · intro ids
    rw [maxOutstanding, promiseAllTrace, maxOutstandingAux_issues,
      maxOutstandingAux_completes]
    rcases ids with _ | _ <;> simp

/-- Counterexample to C4 as stated: in direct mode, a batch with six
unique identifiers has six remote calls outstanding at once, exceeding
the claimed concurrency limit of 5. -/
theorem promiseAll_exceeds_limit :
    maxOutstanding (promiseAllTrace
      ["X000000001", "X000000002", "X000000003",
        "X000000004", "X000000005", "X000000006"]) = 6 ∧ ¬(6 ≤ 5) := by
  constructor
  · decide
  · decide

/-! ## Strategy-order and validation lemmas -/
theorem parseRodeoFNSKUs_eq_tableHits {p : Page} (h : rodeoTableHits p ≠ []) :
    parseRodeoFNSKUs p = rodeoTableHits p := by
  simp only [parseRodeoFNSKUs, List.length_eq_zero]
  rw [if_neg h]

theorem parseRodeoFNSKUs_fallback {p : Page} (h : rodeoTableHits p = []) :
    parseRodeoFNSKUs p = p.htmlTokens.filter isFNSKUToken := by
  simp only [parseRodeoFNSKUs, List.length_eq_zero]
  rw [if_pos h]

theorem extractFNSKUsFromPage_table_branch {p : Page}
    (h : firstNonEmpty (p.tables.map extractFromTable) ≠ []) :
    extractFNSKUsFromPage p =
      dedupFirst (firstNonEmpty (p.tables.map extractFromTable)) := by
  simp only [extractFNSKUsFromPage]
  rw [if_neg h]

theorem extractFNSKUsFromPage_fallback {p : Page}
    (h : firstNonEmpty (p.tables.map extractFromTable) = []) :
    extractFNSKUsFromPage p = dedupFirst (p.bodyTokens.filter isFNSKUToken) := by
  simp only [extractFNSKUsFromPage]
  rw [if_pos h]

theorem mem_firstNonEmpty {ls : List (List String)} {s : String}
    (h : s ∈ firstNonEmpty ls) : ∃ l ∈ ls, s ∈ l := by
  induction ls with
  | nil => simp [firstNonEmpty] at h
  | cons l rest ih =>
    simp only [firstNonEmpty] at h
    by_cases hl : l = []
    · rw [if_pos hl] at h
      obtain ⟨l2, hl2, hs⟩ := ih h
      exact ⟨l2, List.mem_cons_of_mem l hl2, hs⟩
    · rw [if_neg hl] at h
      exact ⟨l, List.mem_cons_self l rest, h⟩

theorem isFNSKUToken_valid {s : String} (h : isFNSKUToken s = true) :
    isUpperAlnumStr s = true ∧ 10 ≤ s.length := by
  unfold isFNSKUToken at h
  cases hd : s.data with
  | nil => rw [hd] at h; exact absurd h (by simp)
  | cons c rest =>
    rw [hd] at h
    simp only [Bool.and_eq_true, Bool.or_eq_true, decide_eq_true_eq,
      List.all_eq_true] at h
    obtain ⟨⟨hc, hlen⟩, hall⟩ := h
    have hne : s ≠ "" := by
      intro he
      rw [he] at hd
      exact absurd hd (by simp)
    have hlens : s.length = rest.length + 1 := by
      show s.data.length = _
      rw [hd, List.length_cons]
    refine ⟨?_, by omega⟩
    unfold isUpperAlnumStr
    simp only [Bool.and_eq_true, decide_eq_true_eq, List.all_eq_true, hd]
    refine ⟨hne, fun x hx => ?_⟩
    rcases List.mem_cons.mp hx with rfl | hx2
    · rcases hc with rfl | rfl <;> decide
    · exact hall x hx2

theorem isBroadToken_valid {s : String} (h : isBroadToken s = true) :
    isUpperAlnumStr s = true ∧ 10 ≤ s.length := by
  unfold isBroadToken at h
  simp only [Bool.and_eq_true, decide_eq_true_eq, List.all_eq_true] at h
  obtain ⟨hlen, hall⟩ := h
  have hlens : s.length = s.data.length := rfl
  have hne : s ≠ "" := by
    intro he
    rw [he] at hlen
    simp at hlen
  refine ⟨?_, by omega⟩
  unfold isUpperAlnumStr
  simp only [Bool.and_eq_true, decide_eq_true_eq, List.all_eq_true]
  exact ⟨hne, hall⟩

theorem rodeoRowFNSKU_valid {ir : ℕ × TableRow} {s : String}
    (h : rodeoRowFNSKU ir = some s) : isUpperAlnumStr s = true := by
  unfold rodeoRowFNSKU at h
  split at h
  · exact absurd h (by simp)
  · split at h
    · split at h
      · rename_i hvalid
        cases h
        exact hvalid
      · exact absurd h (by simp)
    · exact absurd h (by simp)

theorem rodeoPageRowFNSKU_valid {i : ℕ} {ir : ℕ × TableRow} {s : String}
    (h : rodeoPageRowFNSKU i ir = some s) :
    isUpperAlnumStr s = true ∧ 10 ≤ s.length := by
  unfold rodeoPageRowFNSKU at h
  split at h
  · exact absurd h (by simp)
  · split at h
    · split at h
      · rename_i hvalid
        cases h
        exact isFNSKUToken_valid ((Bool.and_eq_true _ _).mp hvalid).2
      · split at h
        · rename_i hvalid
          cases h
          exact isBroadToken_valid ((Bool.and_eq_true _ _).mp hvalid).2
        · exact absurd h (by simp)
    · exact absurd h (by simp)

theorem mem_extractFromTable_valid {t : HtmlTable} {s : String}
    (h : s ∈ extractFromTable t) :
    isUpperAlnumStr s = true ∧ 10 ≤ s.length := by
  unfold extractFromTable at h
  split at h
  · simp at h
  · obtain ⟨ir, _, hir⟩ := List.mem_filterMap.mp h
    exact rodeoPageRowFNSKU_valid hir

/-! ## C3 — ranked strategies, first match wins -/
/-- C3.  Each extractor consults its strategies in rank order and commits
to the first that yields a match: the Rodeo table strategy pre-empts the
raw-HTML regex in `parseRodeoFNSKUs`; the first matching table pre-empts
the `innerText` regex in `extractFNSKUsFromPage`; the labelled-cell scan
pre-empts the `innerText` fallback in `extractWeightFromPage`.  In
particular, on a page where the structured and the unstructured strategy
would both match with different results, only the structured result is
returned. -/
theorem extractors_ranked_strategies :
    (∀ p : Page, rodeoTableHits p ≠ [] →
      parseRodeoFNSKUs p = rodeoTableHits p) ∧
    (∀ p : Page, rodeoTableHits p = [] →
      parseRodeoFNSKUs p = p.htmlTokens.filter isFNSKUToken) ∧
    (∀ p : Page, firstNonEmpty (p.tables.map extractFromTable) ≠ [] →
      extractFNSKUsFromPage p =
        dedupFirst (firstNonEmpty (p.tables.map extractFromTable))) ∧
    (∀ (p : FCPage) (n : JsNumber), scanRowsForWeight p.rows = some n →
      extractWeightFromPage p = some n) ∧
    (extractFNSKUsFromPage pgStructured = ["XAAAAAAAAA"] ∧
      pgStructured.bodyTokens.filter isFNSKUToken = ["XBBBBBBBBB"]) := by
  refine ⟨fun p h => parseRodeoFNSKUs_eq_tableHits h,
    fun p h => parseRodeoFNSKUs_fallback h,
    fun p h => extractFNSKUsFromPage_table_branch h,
    fun p n h => ?_, by decide, by decide⟩
  simp only [extractWeightFromPage, h]

/-- Witness for C3 at a concrete page whose table strategy matches. -/
theorem extractors_ranked_strategies_witness :
    rodeoTableHits pgShortId ≠ [] ∧
    parseRodeoFNSKUs pgShortId = rodeoTableHits pgShortId :=
  ⟨by decide, extractors_ranked_strategies.1 pgShortId (by decide)⟩

/-! ## C5 — duplicate handling in the batch resolver -/
/-- Counterexample to C5 as stated: on `pgStructured` the FN SKU
`XAAAAAAAAA` occurs in two table rows (two physical items), yet
`extractFNSKUsFromPage` — the navigate-resume resolver — returns it only
once: its final `[...new Set(fnskus)]` collapses duplicates. -/
theorem extractFNSKUsFromPage_dedups_counterexample :
    pgStructured.tables.map extractFromTable = [["XAAAAAAAAA", "XAAAAAAAAA"]] ∧
    extractFNSKUsFromPage pgStructured = ["XAAAAAAAAA"] := by
  constructor
  · decide
  · decide

/-- C5, corrected.  Only the direct-mode parser `parseRodeoFNSKUs`
preserves duplicates (when its table strategy matches, an identifier
appears in the output once per matching source row); the navigate-resume
extractor `extractFNSKUsFromPage` deduplicates before returning, so its
output never holds a duplicate.  (The later `[...new Set(fnskus)]` of
`handleFetchBatchData` deduplicates only for the purpose of remote calls.) -/
theorem resolver_duplicate_handling :
    (∀ (p : Page) (s : String), rodeoTableHits p ≠ [] →
      (parseRodeoFNSKUs p).count s =
        ((p.tables.map HtmlTable.rows).flatten.enum.countP
          (fun ir => rodeoRowFNSKU ir == some s))) ∧
    (∀ p : Page, (extractFNSKUsFromPage p).Nodup) := by
  constructor
  · intro p s h
    rw [parseRodeoFNSKUs_eq_tableHits h, rodeoTableHits,
      List.count_filterMap]
  · intro p
    unfold extractFNSKUsFromPage
    exact nodup_dedupFirst _

/-- Witness for C5 at a concrete page: `ABC` is returned once for its one
matching source row. -/
theorem resolver_duplicate_handling_witness :
    rodeoTableHits pgShortId ≠ [] ∧
    (parseRodeoFNSKUs pgShortId).count "ABC" =
      ((pgShortId.tables.map HtmlTable.rows).flatten.enum.countP
        (fun ir => rodeoRowFNSKU ir == some "ABC")) :=
  ⟨by decide, resolver_duplicate_handling.1 pgShortId "ABC" (by decide)⟩

/-! ## C7 — identifier validation -/
/-- Counterexample to C7 as stated: the table strategy of
`parseRodeoFNSKUs` validates with `/^[A-Z0-9]+$/`, which accepts strings
of any length, so the three-character cell `ABC` is returned. -/
theorem parseRodeoFNSKUs_short_id :
    parseRodeoFNSKUs pgShortId = ["ABC"] ∧ ¬(10 ≤ ("ABC" : String).length) := by
  constructor
  · decide
  · decide

/-- C7, corrected.  Every identifier returned by either extractor is a
non-empty all-uppercase-alphanumeric string, but only the navigate-resume
extractor `extractFNSKUsFromPage` (and the regex fallbacks) guarantee
length ≥ 10; the table strategy of the direct-mode `parseRodeoFNSKUs`
accepts any `/^[A-Z0-9]+$/` match, however short. -/
theorem identifier_validation :
    (∀ (p : Page) (s : String), s ∈ parseRodeoFNSKUs p →
      isUpperAlnumStr s = true) ∧
    (∀ (p : Page) (s : String), s ∈ extractFNSKUsFromPage p →
      isUpperAlnumStr s = true ∧ 10 ≤ s.length) := by
  constructor
  · intro p s h
    by_cases ht : rodeoTableHits p = []
    · rw [parseRodeoFNSKUs_fallback ht] at h
      exact (isFNSKUToken_valid (List.of_mem_filter h)).1
    · rw [parseRodeoFNSKUs_eq_tableHits ht] at h
      obtain ⟨ir, _, hir⟩ := List.mem_filterMap.mp h
      exact rodeoRowFNSKU_valid hir
  · intro p s h
    by_cases ht : firstNonEmpty (p.tables.map extractFromTable) = []
    · rw [extractFNSKUsFromPage_fallback ht] at h
      rw [mem_dedupFirst] at h
      exact isFNSKUToken_valid (List.of_mem_filter h)
    · rw [extractFNSKUsFromPage_table_branch ht] at h
      rw [mem_dedupFirst] at h
      obtain ⟨l, hl, hs⟩ := mem_firstNonEmpty h
      obtain ⟨t, _, rfl⟩ := List.mem_map.mp hl
      exact mem_extractFromTable_valid hs

/-- Witness for C7 at a concrete page and identifier. -/
theorem identifier_validation_witness :
    "XAAAAAAAAA" ∈ extractFNSKUsFromPage pgStructured ∧
    (isUpperAlnumStr "XAAAAAAAAA" = true ∧ 10 ≤ ("XAAAAAAAAA" : String).length) :=
  ⟨by decide, identifier_validation.2 pgStructured "XAAAAAAAAA" (by decide)⟩

/-! ## C6 — no range validation on extracted weights -/
/-- Counterexample to C6 as stated: a page reporting `5000 pounds` makes
`extractWeightFromPage` return 5000, which is not strictly between 0 and
1000; no parsed value is ever range-checked. -/
theorem extractWeightFromPage_no_range_check :
    extractWeightFromPage fcPage5000 = some (JsNumber.val 5000) ∧
    ¬((0 : ℚ) < 5000 ∧ (5000 : ℚ) < 1000) := by
  constructor
  · decide
  · intro hc
    have := hc.2
    norm_num at this

/-- C6, corrected.  The weight extractors return exactly the number the
first successful parsing strategy produced, with no range check at all:
whatever rational the value cell parses to — 5000, 0, anything — is
returned.  This holds for both the navigate-resume extractor
(`extractWeightFromPage`) and the direct-mode parser
(`parseFCResearchWeight`). -/
theorem extractWeight_returns_parsed_value :
    (∀ (label value bodyText : String) (t0 t1 : CellTag) (n : JsNumber),
      lcString (jsTrim label) = "weight" →
      parseWeightText (jsTrim value) = some n →
      extractWeightFromPage
        ⟨[⟨[⟨t0, label, none⟩, ⟨t1, value, none⟩]⟩], bodyText⟩ = some n) ∧
    (∀ (label value html : String) (t0 t1 : CellTag) (n : JsNumber),
      lcString (jsTrim label) = "weight" →
      parseWeightText (jsTrim value) = some n →
      parseFCResearchWeight
        ⟨[⟨[⟨t0, label, none⟩, ⟨t1, value, none⟩]⟩], html⟩ = some n) := by
  constructor
  · intro label value bodyText t0 t1 n h1 h2
    simp only [extractWeightFromPage, scanRowsForWeight, scanCellsForWeight,
      h1, if_pos, h2]
  · intro label value html t0 t1 n h1 h2
    simp only [parseFCResearchWeight, scanRowsForWeight, scanCellsForWeight,
      h1, if_pos, h2]

/-- Witness for C6: the parsed value 5000 — far outside `(0, 1000)` — is
returned unchanged. -/
theorem extractWeight_returns_parsed_value_witness :
    (lcString (jsTrim "Weight") = "weight" ∧
      parseWeightText (jsTrim "5000 pounds") = some (JsNumber.val 5000)) ∧
    extractWeightFromPage
      ⟨[⟨[⟨CellTag.td, "Weight", none⟩, ⟨CellTag.td, "5000 pounds", none⟩]⟩],
        ""⟩ = some (JsNumber.val 5000) :=
  ⟨⟨by decide, by decide⟩,
    extractWeight_returns_parsed_value.1 "Weight" "5000 pounds" "" CellTag.td
      CellTag.td (JsNumber.val 5000) (by decide) (by decide)⟩

/-! ## Average/minimum/maximum lemmas over `foldl min` / `foldl max` -/
theorem foldl_min_le_init (ws : List ℚ) (w : ℚ) : ws.foldl min w ≤ w := by
  induction ws generalizing w with
  | nil => simp
  | cons x t ih => exact le_trans (ih (min w x)) (min_le_left w x)

theorem le_foldl_max_init (ws : List ℚ) (w : ℚ) : w ≤ ws.foldl max w := by
  induction ws generalizing w with
  | nil => simp
  | cons x t ih => exact le_trans (le_max_left w x) (ih (max w x))

theorem foldl_min_mul_le_sum (ws : List ℚ) (w : ℚ) :
    ws.foldl min w * (ws.length + 1 : ℚ) ≤ w + ws.sum := by
  induction ws generalizing w with
  | nil => simp
  | cons x t ih =>
    have h1 := ih (min w x)
    have h2 : List.foldl min (min w x) t ≤ min w x := foldl_min_le_init t (min w x)
    have hw : min w x ≤ w := min_le_left w x
    have hx : min w x ≤ x := min_le_right w x
    simp only [List.foldl_cons, List.length_cons, List.sum_cons]
    push_cast
    push_cast at h1
    nlinarith [h1, h2, hw, hx]

theorem sum_le_foldl_max_mul (ws : List ℚ) (w : ℚ) :
    w + ws.sum ≤ ws.foldl max w * (ws.length + 1 : ℚ) := by
  induction ws generalizing w with
  | nil => simp
  | cons x t ih =>
    have h1 := ih (max w x)
    have h2 : max w x ≤ List.foldl max (max w x) t := le_foldl_max_init t (max w x)
    have hw : w ≤ max w x := le_max_left w x
    have hx : x ≤ max w x := le_max_right w x
    simp only [List.foldl_cons, List.length_cons, List.sum_cons]
    push_cast
    push_cast at h1
    nlinarith [h1, h2, hw, hx]

/-- For a non-empty list, the minimum is at most the mean and the mean is
at most the maximum (JavaScript computes all three over `weights`). -/
theorem min_le_avg_le_max (w : ℚ) (ws : List ℚ) :
    ws.foldl min w ≤ (w :: ws).sum / (((w :: ws).length : ℕ) : ℚ) ∧
    (w :: ws).sum / (((w :: ws).length : ℕ) : ℚ) ≤ ws.foldl max w := by
  have hn : (0 : ℚ) < (((w :: ws).length : ℕ) : ℚ) := by
    simp only [List.length_cons]
    push_cast
    positivity
  constructor
  · rw [le_div_iff₀ hn]
    simp only [List.length_cons, List.sum_cons]
    push_cast
    exact foldl_min_mul_le_sum ws w
  · rw [div_le_iff₀ hn]
    simp only [List.length_cons, List.sum_cons]
    push_cast
    exact sum_le_foldl_max_mul ws w

/-! ## Statistics lemmas -/
theorem computeStatistics_isSome (batchId : String) (fnskus uniq : List String)
    (wm : String → Option ℚ) (h : fnskus.filterMap wm ≠ []) :
    ∃ r, computeStatistics batchId fnskus uniq wm = some r := by
  unfold computeStatistics
  rcases hfm : fnskus.filterMap wm with _ | ⟨w, ws⟩
  · exact absurd hfm h
  · exact ⟨_, rfl⟩

theorem computeStatistics_none (batchId : String) (fnskus uniq : List String)
    (wm : String → Option ℚ) (h : fnskus.filterMap wm = []) :
    computeStatistics batchId fnskus uniq wm = none := by
  unfold computeStatistics
  rw [h]

theorem weightMapOf_mem (uniq : List String) (f : String → Option ℚ)
    (s : String) (h : s ∈ uniq) : weightMapOf uniq f s = f s := by
  simp [weightMapOf, h]

theorem filterMap_none (l : List String) (g : String → Option ℚ)
    (h : ∀ s, g s = none) : l.filterMap g = [] := by
  induction l with
  | nil => rfl
  | cons a t ih => simp [List.filterMap_cons, h a, ih]

theorem computeStatistics_invariants (batchId : String) (fnskus : List String)
    (wm : String → Option ℚ) (r : BatchResult)
    (h : computeStatistics batchId fnskus (dedupFirst fnskus) wm = some r) :
    1 ≤ r.itemsWithWeight ∧ r.itemsWithWeight ≤ r.totalItems ∧
    r.uniqueSKUs ≤ r.totalItems ∧
    r.minWeight ≤ r.averageWeight ∧ r.averageWeight ≤ r.maxWeight := by
  unfold computeStatistics at h
  rcases hfm : fnskus.filterMap wm with _ | ⟨w, ws⟩ <;> rw [hfm] at h
  · simp at h
  · cases h
    refine ⟨by simp, ?_, length_dedupFirst_le fnskus,
      round2_mono (min_le_avg_le_max w ws).1,
      round2_mono (min_le_avg_le_max w ws).2⟩
    have h1 := List.length_filterMap_le wm fnskus
    rw [hfm] at h1
    simpa using h1

/-! ## C1 — the aggregator's statistics -/
/-- C1.  For every non-empty list of resolved weights drawn from the
original (non-deduplicated) identifier list, the statistics step returns
total, average (round-half-up), minimum and maximum, each rounded to two
decimals, together with the original count, the resolved count and the
number of distinct identifiers; on the §8 example `[A, A, B]` with
weights `{A: 1.0, B: 3.0}` it returns exactly
`{totalItems: 3, itemsWithWeight: 3, averageWeight: 1.67, totalWeight: 5,
minWeight: 1, maxWeight: 3, uniqueSKUs: 2}`. -/
theorem computeStatistics_correct :
    (∀ (batchId : String) (fnskus : List String) (wm : String → Option ℚ),
      fnskus.filterMap wm ≠ [] →
      ∃ r, computeStatistics batchId fnskus (dedupFirst fnskus) wm = some r ∧
        r.totalWeight = round2 (fnskus.filterMap wm).sum ∧
        r.averageWeight =
          round2 ((fnskus.filterMap wm).sum /
            (((fnskus.filterMap wm).length : ℕ) : ℚ)) ∧
        (∀ m, (fnskus.filterMap wm).min? = some m →
          r.minWeight = round2 m) ∧
        (∀ m, (fnskus.filterMap wm).max? = some m →
          r.maxWeight = round2 m) ∧
        r.totalItems = fnskus.length ∧
        r.itemsWithWeight = (fnskus.filterMap wm).length ∧
        r.uniqueSKUs = fnskus.toFinset.card) ∧
    computeStatistics "B1" ["A", "A", "B"] (dedupFirst ["A", "A", "B"])
      exampleWeights = some ⟨"B1", 3, 3, 167 / 100, 5, 1, 3, 2⟩ := by
  constructor
  · intro batchId fnskus wm h
    rcases hfm : fnskus.filterMap wm with _ | ⟨w, ws⟩
    · exact absurd hfm h
    · have hcs : computeStatistics batchId fnskus (dedupFirst fnskus) wm =
          some { batchId := batchId
                 totalItems := fnskus.length
                 itemsWithWeight := (w :: ws).length
                 averageWeight :=
                   round2 ((w :: ws).sum / (((w :: ws).length : ℕ) : ℚ))
                 totalWeight := round2 (w :: ws).sum
                 minWeight := round2 (ws.foldl min w)
                 maxWeight := round2 (ws.foldl max w)
                 uniqueSKUs := (dedupFirst fnskus).length } := by
        unfold computeStatistics
        rw [hfm]
      refine ⟨_, hcs, rfl, rfl, ?_, ?_, rfl, rfl,
        length_dedupFirst_eq_card fnskus⟩
      · intro m hm
        have h2 : some (ws.foldl min w) = some m := hm
        cases h2
        rfl
      · intro m hm
        have h2 : some (ws.foldl max w) = some m := hm
        cases h2
        rfl
  · have hfm : ["A", "A", "B"].filterMap exampleWeights = [1, 1, 3] := by
      decide
    have hlen : (dedupFirst ["A", "A", "B"]).length = 2 := by decide
    unfold computeStatistics
    rw [hfm]
    simp only [Option.some.injEq, BatchResult.mk.injEq, hlen]
    norm_num [round2, min_def, max_def]

/-- Witness for C1 at the §8 example input. -/
theorem computeStatistics_correct_witness :
    ["A", "A", "B"].filterMap exampleWeights ≠ [] ∧
    (computeStatistics "B1" ["A", "A", "B"] (dedupFirst ["A", "A", "B"])
      exampleWeights).isSome := by
  refine ⟨by decide, ?_⟩
  obtain ⟨r, hr, -⟩ :=
    computeStatistics_correct.1 "B1" ["A", "A", "B"] exampleWeights (by decide)
  rw [hr]
  rfl

/-! ## Orchestration lemmas -/
theorem handleFetchBatchData_connected_eq (tabs : ConnectedTabs)
    (batchId : String) (fnskus : List String) (f : String → Option ℚ)
    (hconn : areAllTabsConnected tabs = true) (hne : fnskus ≠ []) :
    handleFetchBatchData tabs batchId ⟨none, fnskus⟩ f =
      match computeStatistics batchId fnskus (dedupFirst fnskus)
          (weightMapOf (dedupFirst fnskus) f) with
      | none => BatchOutcome.failure
          "Could not retrieve weights for any items from FC Research"
      | some r => BatchOutcome.success r := by
  unfold handleFetchBatchData
  rw [if_neg (by simp [hconn])]
  dsimp only
  rw [if_neg (by simp [List.length_eq_zero, hne])]

/-- The §8 partial-resolution example evaluated end to end: of
`[A, B, C]` only `A` and `C` resolve (2.0 and 4.0 pounds), giving
`itemsWithWeight = 2`, `totalItems = 3`, `average = 3.00`. -/
theorem handleFetchBatchData_example :
    handleFetchBatchData tabsAll "B2"
      ⟨none, ["XAAAAAAAAA", "XBBBBBBBBB", "XCCCCCCCCC"]⟩ oracleAC =
      BatchOutcome.success ⟨"B2", 3, 2, 3, 6, 2, 4, 3⟩ := by
  rw [handleFetchBatchData_connected_eq tabsAll "B2"
    ["XAAAAAAAAA", "XBBBBBBBBB", "XCCCCCCCCC"] oracleAC (by decide) (by decide)]
  have hfm : ["XAAAAAAAAA", "XBBBBBBBBB", "XCCCCCCCCC"].filterMap
      (weightMapOf (dedupFirst ["XAAAAAAAAA", "XBBBBBBBBB", "XCCCCCCCCC"])
        oracleAC) = [2, 4] := by decide
  have hlen : (dedupFirst ["XAAAAAAAAA", "XBBBBBBBBB", "XCCCCCCCCC"]).length = 3 := by
    decide
  have hcs : computeStatistics "B2" ["XAAAAAAAAA", "XBBBBBBBBB", "XCCCCCCCCC"]
      (dedupFirst ["XAAAAAAAAA", "XBBBBBBBBB", "XCCCCCCCCC"])
      (weightMapOf (dedupFirst ["XAAAAAAAAA", "XBBBBBBBBB", "XCCCCCCCCC"])
        oracleAC) = some ⟨"B2", 3, 2, 3, 6, 2, 4, 3⟩ := by
    unfold computeStatistics
    rw [hfm]
    simp only [Option.some.injEq, BatchResult.mk.injEq, hlen]
    norm_num [round2, min_def, max_def]
  rw [hcs]

/-! ## C8 — failure propagation policy -/
/-- C8.  A weight-resolution failure of an individual item never aborts
the batch: as soon as one original identifier resolves, the request
succeeds (and on the §8 example `[A, B, C]` with `B` unresolved, the
result counts `itemsWithWeight = 2` of `totalItems = 3`, average 3.00).
Each batch-level failure — a missing required tab, an empty identifier
list, or no weight resolved at all — aborts the whole request with the
code's human-readable message, and no statistics record is produced. -/
theorem handleFetchBatchData_error_policy :
    (∀ (tabs : ConnectedTabs) (batchId : String) (fnskus : List String)
        (fetchWeight : String → Option ℚ) (s : String) (wq : ℚ),
      areAllTabsConnected tabs = true → s ∈ fnskus →
      fetchWeight s = some wq →
      ∃ r, handleFetchBatchData tabs batchId ⟨none, fnskus⟩ fetchWeight =
        BatchOutcome.success r) ∧
    (∀ (tabs : ConnectedTabs) (batchId : String)
        (rodeoResult : RodeoResponse) (fetchWeight : String → Option ℚ),
      areAllTabsConnected tabs = false →
      handleFetchBatchData tabs batchId rodeoResult fetchWeight =
        BatchOutcome.failure ("Missing required tabs: " ++
          String.intercalate ", " (getMissingTabs tabs) ++
            ". Please open all three tabs.")) ∧
    (∀ (tabs : ConnectedTabs) (batchId : String)
        (fetchWeight : String → Option ℚ),
      areAllTabsConnected tabs = true →
      handleFetchBatchData tabs batchId ⟨none, []⟩ fetchWeight =
        BatchOutcome.failure "No FN SKUs found for this batch in Rodeo") ∧
    (∀ (tabs : ConnectedTabs) (batchId : String) (fnskus : List String)
        (fetchWeight : String → Option ℚ),
      areAllTabsConnected tabs = true → fnskus ≠ [] →
      (∀ s, fetchWeight s = none) →
      handleFetchBatchData tabs batchId ⟨none, fnskus⟩ fetchWeight =
        BatchOutcome.failure
          "Could not retrieve weights for any items from FC Research") ∧
    handleFetchBatchData tabsAll "B2"
      ⟨none, ["XAAAAAAAAA", "XBBBBBBBBB", "XCCCCCCCCC"]⟩ oracleAC =
      BatchOutcome.success ⟨"B2", 3, 2, 3, 6, 2, 4, 3⟩ := by
  refine ⟨?_, ?_, ?_, ?_, handleFetchBatchData_example⟩
  · intro tabs batchId fnskus f s wq hconn hs hw
    have hmm : wq ∈ fnskus.filterMap (weightMapOf (dedupFirst fnskus) f) :=
      List.mem_filterMap.mpr ⟨s, hs, by
        rw [weightMapOf_mem (dedupFirst fnskus) f s (mem_dedupFirst.mpr hs), hw]⟩
    obtain ⟨r, hr⟩ := computeStatistics_isSome batchId fnskus (dedupFirst fnskus)
      (weightMapOf (dedupFirst fnskus) f)
      (List.ne_nil_of_mem hmm)
    refine ⟨r, ?_⟩
    rw [handleFetchBatchData_connected_eq tabs batchId fnskus f hconn
      (List.ne_nil_of_mem hs), hr]
  · intro tabs batchId rodeoResult f hconn
    unfold handleFetchBatchData
    rw [if_pos (by simp [hconn])]
  · intro tabs batchId f hconn
    unfold handleFetchBatchData
    rw [if_neg (by simp [hconn])]
    rfl
  · intro tabs batchId fnskus f hconn hne hnone
    rw [handleFetchBatchData_connected_eq tabs batchId fnskus f hconn hne,
      computeStatistics_none batchId fnskus (dedupFirst fnskus)
        (weightMapOf (dedupFirst fnskus) f)
        (filterMap_none fnskus _ (fun s => by simp [weightMapOf, hnone s]))]

/-- Witness for C8: the empty-identifier abort at a concrete state. -/
theorem handleFetchBatchData_error_policy_witness :
    areAllTabsConnected tabsAll = true ∧
    handleFetchBatchData tabsAll "B9" ⟨none, []⟩ oracleAC =
      BatchOutcome.failure "No FN SKUs found for this batch in Rodeo" :=
  ⟨by decide, handleFetchBatchData_error_policy.2.2.1 tabsAll "B9" oracleAC
    (by decide)⟩

/-! ## C10 — result invariants -/
/-- C10.  Every successful batch result satisfies
`1 ≤ itemsWithWeight ≤ totalItems`, `uniqueSKUs ≤ totalItems`, and
`minWeight ≤ averageWeight ≤ maxWeight` (the two-decimal rounding is
monotone, so it preserves the ordering of minimum, mean and maximum). -/
theorem batchResult_invariants :
    ∀ (tabs : ConnectedTabs) (batchId : String) (rodeoResult : RodeoResponse)
      (fetchWeight : String → Option ℚ) (r : BatchResult),
      handleFetchBatchData tabs batchId rodeoResult fetchWeight =
        BatchOutcome.success r →
      1 ≤ r.itemsWithWeight ∧ r.itemsWithWeight ≤ r.totalItems ∧
      r.uniqueSKUs ≤ r.totalItems ∧
      r.minWeight ≤ r.averageWeight ∧ r.averageWeight ≤ r.maxWeight := by
  intro tabs batchId rodeoResult f r h
  unfold handleFetchBatchData at h
  split at h
  · exact absurd h (by simp)
  · split at h
    · exact absurd h (by simp)
    · dsimp only at h
      split at h
      · exact absurd h (by simp)
      · split at h
        · exact absurd h (by simp)
        · rename_i r' hcs
          cases h
          exact computeStatistics_invariants batchId rodeoResult.fnskus
            (weightMapOf (dedupFirst rodeoResult.fnskus) f) r hcs

/-- Witness for C10 at the concrete successful batch of
`handleFetchBatchData_example`. -/
theorem batchResult_invariants_witness :
    handleFetchBatchData tabsAll "B2"
      ⟨none, ["XAAAAAAAAA", "XBBBBBBBBB", "XCCCCCCCCC"]⟩ oracleAC =
      BatchOutcome.success ⟨"B2", 3, 2, 3, 6, 2, 4, 3⟩ ∧
    ((1 : ℕ) ≤ 2 ∧ (2 : ℕ) ≤ 3 ∧ (3 : ℕ) ≤ 3 ∧
      (2 : ℚ) ≤ 3 ∧ (3 : ℚ) ≤ 4) :=
  ⟨handleFetchBatchData_example,
    batchResult_invariants tabsAll "B2"
      ⟨none, ["XAAAAAAAAA", "XBBBBBBBBB", "XCCCCCCCCC"]⟩ oracleAC
      ⟨"B2", 3, 2, 3, 6, 2, 4, 3⟩ handleFetchBatchData_example⟩

end PickingConsole
